import Mathlib

/-!
# RecorderController (src/script.js)

A shallow embedding of the Vue `setup()` closure of `src/script.js`: the reactive
cells become the fields of `State`, every exported operation and every platform
callback becomes a function `State → State`, and the browser collaborators
(MediaRecorder objects, interval timers, object URLs, media tracks, pending
promises) are explicit components of the same state.
-/

namespace Srec

/-! ## Strings: `Number.prototype.toString` and `String.prototype.padStart` -/

/-- `n.toString()` for a non-negative integer: its decimal digits. -/
def numToString (n : Nat) : List Char :=
  Nat.toDigits 10 n

/-- `s.padStart(width, "0")` with a one-character filler: the filler is put in front until
the string has `width` characters; a string that is already that long is returned as is. -/
def padStart (width : Nat) (fill : Char) (s : List Char) : List Char :=
  List.replicate (width - s.length) fill ++ s

/-- `formattedTime` (script.js lines 17-21), as a function of `recordingTime.value`. -/
def formattedTime (recordingTime : Nat) : String :=
  let minutes := recordingTime / 60
  let seconds := recordingTime % 60
  String.mk (padStart 2 '0' (numToString minutes) ++ ':' :: padStart 2 '0' (numToString seconds))

/-- Value of one decimal digit character (code point minus that of `'0'`). -/
def digitValue (c : Char) : Nat :=
  c.toNat - 48

/-- The number a string of decimal digits denotes, most significant digit first. -/
def decimalValue (cs : List Char) : Nat :=
  cs.foldl (fun acc c => 10 * acc + digitValue c) 0

/-- The `MM:SS` shape of the elapsed-time display for `t` seconds: two decimal digits, a colon,
two decimal digits, the seconds at most 59, and `60 * MM + SS = t`. -/
def IsMMSS (s : String) (t : Nat) : Prop :=
  ∃ m1 m2 s1 s2 : Char,
    s = String.mk [m1, m2, ':', s1, s2] ∧
    m1.isDigit = true ∧ m2.isDigit = true ∧ s1.isDigit = true ∧ s2.isDigit = true ∧
    decimalValue [s1, s2] ≤ 59 ∧
    60 * decimalValue [m1, m2] + decimalValue [s1, s2] = t

/-! ## Platform objects -/

/-- A `MediaStream`: the handles of its video tracks and of its audio tracks. -/
structure MediaStreamObj where
  videoTracks : List Nat
  audioTracks : List Nat
deriving DecidableEq

/-- `stream.getTracks()`. -/
def MediaStreamObj.getTracks (m : MediaStreamObj) : List Nat :=
  m.videoTracks ++ m.audioTracks

/-- `new MediaStream([...display.getVideoTracks(), ...display.getAudioTracks(),
...camera.getVideoTracks()])` (script.js line 40). -/
def combineStreams (displayStream cameraStream : MediaStreamObj) : MediaStreamObj :=
  { videoTracks := displayStream.videoTracks ++ cameraStream.videoTracks
    audioTracks := displayStream.audioTracks }

/-- A `Blob`: its bytes and its MIME type. -/
structure Blob where
  bytes : List Nat
  type : String
deriving DecidableEq

/-- `blob.size`. -/
def Blob.size (b : Blob) : Nat :=
  b.bytes.length

/-- Contents of `new Blob(parts)`: the bytes of the parts one after the other. -/
def concatBytes : List Blob → List Nat
  | [] => []
  | b :: bs => b.bytes ++ concatBytes bs

/-- `new Blob(parts, { type })`. -/
def Blob.ofParts (parts : List Blob) (type : String) : Blob :=
  { bytes := concatBytes parts, type := type }

/-- `MediaRecorder.state`. -/
inductive RecorderState where
  | inactive
  | recording
  | paused
deriving DecidableEq

/-- A `MediaRecorder` object. Its `ondataavailable` and `onstop` handlers are the two closures
of script.js lines 106-129 for every recorder the program creates, so they are not stored. -/
structure MediaRecorderObj where
  stream : MediaStreamObj
  mimeType : String
  videoBitsPerSecond : Nat
  timeslice : Option Nat
  state : RecorderState
deriving DecidableEq

/-- An entry of `recordings.value` (script.js lines 117-123). `id` is `Date.now()`, `url` the
handle returned by `URL.createObjectURL`. -/
structure Recording where
  id : Nat
  url : Nat
  blob : Blob
  timestamp : String
  duration : Nat
deriving DecidableEq

/-! ## State -/

/-- The reactive cells of `setup()` (script.js lines 5-15) followed by the platform state the
operations act on. -/
structure State where
  mediaStream : Option MediaStreamObj
  /-- `mediaRecorder.value`: a reference (index into `encoders`) or `null`. -/
  mediaRecorder : Option Nat
  recordedChunks : List Blob
  isRecording : Bool
  isPaused : Bool
  recordingTime : Nat
  recordings : List Recording
  error : String
  recordingMode : String
  /-- `videoPreview.value`: `none` is `null`, `some src` the element with `srcObject = src`. -/
  videoPreview : Option (Option MediaStreamObj)
  /-- `recordingInterval.value`: `null` or a timer handle (handles are positive, hence truthy). -/
  recordingInterval : Option Nat
  /-- Every `MediaRecorder` created so far. -/
  encoders : List MediaRecorderObj
  /-- Recorders whose `stop` event is queued and has not been dispatched yet. -/
  pendingStop : List Nat
  /-- Handles of the armed interval timers. -/
  timers : List Nat
  /-- Handle the next `setInterval` returns. -/
  nextTimer : Nat
  /-- Handle the next `URL.createObjectURL` returns; every handle below it has been created. -/
  nextUrl : Nat
  /-- Log of the `URL.revokeObjectURL` calls, oldest first. -/
  revoked : List Nat
  /-- Tracks handed out by the capture sources and not stopped or ended yet. -/
  liveTracks : List Nat
  /-- Tracks carrying an `ended` listener of script.js line 58, one entry per registration. -/
  endedListeners : List Nat
  /-- Calls of `startScreenShare` suspended at `await getDisplayMedia`. -/
  awaitingDisplay : Nat
  /-- Calls of `startScreenShare` suspended at `await getUserMedia`, with their `displayStream`. -/
  awaitingCamera : List MediaStreamObj
deriving DecidableEq

/-- State right after `setup()` has run (script.js lines 5-15); nothing has been created. -/
def initialState : State :=
  { mediaStream := none, mediaRecorder := none, recordedChunks := [], isRecording := false,
    isPaused := false, recordingTime := 0, recordings := [], error := "",
    recordingMode := "screen", videoPreview := none, recordingInterval := none,
    encoders := [], pendingStop := [], timers := [], nextTimer := 1, nextUrl := 0,
    revoked := [], liveTracks := [], endedListeners := [], awaitingDisplay := 0,
    awaitingCamera := [] }

/-- `hasStream` (script.js line 23). -/
def hasStream (s : State) : Bool :=
  s.mediaStream.isSome

/-! ## Platform primitives -/

/-- Replaces the state of recorder `k` among the recorders `es`. -/
def setRecorderState (k : Nat) (st : RecorderState) (es : List MediaRecorderObj) :
    List MediaRecorderObj :=
  es.modify (fun r => { r with state := st }) k

/-- State of recorder `k` (`inactive` for a reference to nothing). -/
def recorderState (k : Nat) (es : List MediaRecorderObj) : RecorderState :=
  match es[k]? with
  | some r => r.state
  | none => RecorderState.inactive

/-- `recorder.start(timeslice)`: throws (`none`) unless the recorder is inactive. -/
def recorderStart (k : Nat) (timeslice : Nat) (es : List MediaRecorderObj) :
    Option (List MediaRecorderObj) :=
  match es[k]? with
  | some r =>
    if r.state = RecorderState.inactive then
      some (es.modify (fun r => { r with state := RecorderState.recording,
                                         timeslice := some timeslice }) k)
    else none
  | none => none

/-- `recorder.pause()`: throws (`none`) on an inactive recorder. -/
def recorderPause (k : Nat) (es : List MediaRecorderObj) : Option (List MediaRecorderObj) :=
  match recorderState k es with
  | RecorderState.inactive => none
  | RecorderState.paused => some es
  | RecorderState.recording => some (setRecorderState k RecorderState.paused es)

/-- `recorder.resume()`: throws (`none`) on an inactive recorder. -/
def recorderResume (k : Nat) (es : List MediaRecorderObj) : Option (List MediaRecorderObj) :=
  match recorderState k es with
  | RecorderState.inactive => none
  | RecorderState.recording => some es
  | RecorderState.paused => some (setRecorderState k RecorderState.recording es)

/-- `recorder.stop()`: nothing on an inactive recorder; otherwise the recorder becomes inactive
and the task that fires `dataavailable` and then `stop` is queued. -/
def recorderStop (k : Nat) (s : State) : State :=
  if recorderState k s.encoders = RecorderState.inactive then s
  else { s with encoders := setRecorderState k RecorderState.inactive s.encoders
                pendingStop := s.pendingStop ++ [k] }

/-- `clearInterval(h)`. -/
def clearInterval (h : Nat) (s : State) : State :=
  { s with timers := s.timers.erase h }

/-- `URL.revokeObjectURL(url)`. -/
def revokeObjectURL (url : Nat) (s : State) : State :=
  { s with revoked := s.revoked ++ [url] }

/-- `track.stop()` for every track of a stream. -/
def stopTracks (m : MediaStreamObj) (s : State) : State :=
  { s with liveTracks := s.liveTracks.filter (fun t => !(m.getTracks.contains t)) }

/-! ## Operations of the controller -/

/-- `possibleMimeTypes` (script.js line 88). -/
def possibleMimeTypes : List String :=
  ["video/x-matroska;codecs=h264", "video/webm;codecs=vp9", "video/webm;codecs=vp8",
   "video/webm", "video/mp4"]

/-- The loop of script.js lines 90-96 over a list of candidates: the first candidate that
`MediaRecorder.isTypeSupported` accepts, `none` (`null`) when it accepts none. -/
def selectMimeType (isTypeSupported : String → Bool) : List String → Option String
  | [] => none
  | type :: rest =>
    if isTypeSupported type then some type else selectMimeType isTypeSupported rest

/-- Message of script.js line 142. -/
def startRecordingError : String :=
  "Failed to start recording. Please try again."

/-- Message of script.js line 63. -/
def screenShareError : String :=
  "Failed to access screen. Please grant permission and try again."

/-- `startRecording` (script.js lines 82-144). `isTypeSupported` is the platform's
`MediaRecorder.isTypeSupported`. A thrown exception lands in the `catch` of line 140, which
sets `error`. -/
def startRecording (isTypeSupported : String → Bool) (s : State) : State :=
  match s.mediaStream with
  | none => s
  | some stream =>
    let s1 := { s with recordedChunks := [] }
    match selectMimeType isTypeSupported possibleMimeTypes with
    | none => { s1 with error := startRecordingError }
    | some selectedMimeType =>
      let k := s1.encoders.length
      let s2 := { s1 with
        encoders := s1.encoders ++
          [({ stream := stream, mimeType := selectedMimeType, videoBitsPerSecond := 8000000,
              timeslice := none, state := RecorderState.inactive } : MediaRecorderObj)]
        mediaRecorder := some k }
      match recorderStart k 1000 s2.encoders with
      | none => { s2 with error := startRecordingError }
      | some started =>
        { s2 with
          encoders := started
          isRecording := true
          recordingTime := 0
          recordingInterval := some s2.nextTimer
          timers := s2.timers ++ [s2.nextTimer]
          nextTimer := s2.nextTimer + 1 }

/-- Up to `2 ^ 53` every non-negative integer is an IEEE-754 double of its own. -/
def doubleExactBound : Nat :=
  2 ^ 53

/-- The IEEE-754 double nearest to the non-negative integer `m`: `m` itself up to `2 ^ 53`,
otherwise `m` rounded to 53 significant bits, a tie going to the even significand. -/
def roundToDouble (m : Nat) : Nat :=
  if m ≤ doubleExactBound then m
  else
    let e := Nat.log2 m - 52
    let q := m / 2 ^ e
    let r := m % 2 ^ e
    let half := 2 ^ (e - 1)
    if r < half then q * 2 ^ e
    else if half < r then (q + 1) * 2 ^ e
    else if q % 2 = 0 then q * 2 ^ e
    else (q + 1) * 2 ^ e

/-- `x++` on a cell holding the integer-valued double `x`: the sum `x + 1` rounded to a double.
From `2 ^ 53` on the 1 is absorbed (`2 ^ 53 + 1` rounds back to `2 ^ 53`). -/
def incrementDouble (x : Nat) : Nat :=
  roundToDouble (x + 1)

/-- The interval callback of script.js lines 135-139; `recordingTime.value++` is an increment
of a double. -/
def timerCallback (s : State) : State :=
  if !s.isPaused then { s with recordingTime := incrementDouble s.recordingTime } else s

/-- The `ondataavailable` handler of script.js lines 106-110. -/
def ondataavailable (data : Blob) (s : State) : State :=
  if data.size > 0 then { s with recordedChunks := s.recordedChunks ++ [data] } else s

/-- The comparator `(a, b) => b.id - a.id` of script.js line 126. -/
def compareRecordings (a b : Recording) : Int :=
  (b.id : Int) - (a.id : Int)

/-- Order in which `sort` leaves two neighbours under `compareRecordings`: the comparator does
not ask for `a` to go after `b`. -/
def newestFirst (a b : Recording) : Prop :=
  compareRecordings a b ≤ 0

instance newestFirst_decidable : DecidableRel newestFirst :=
  fun a b => inferInstanceAs (Decidable (compareRecordings a b ≤ 0))

/-- `recordings.value.sort((a, b) => b.id - a.id)`: `Array.prototype.sort` is a stable sort, and
a stable sort has one possible result, computed here by insertion. -/
def sortRecordings (rs : List Recording) : List Recording :=
  rs.insertionSort newestFirst

/-- The `onstop` handler of script.js lines 112-129. `now` is `Date.now()` and `timestamp` is
`new Date().toLocaleString()`; `URL.createObjectURL` returns the fresh handle `nextUrl`. -/
def onstop (now : Nat) (timestamp : String) (s : State) : State :=
  let blob := Blob.ofParts s.recordedChunks "video/webm"
  let url := s.nextUrl
  let s1 := { s with nextUrl := s.nextUrl + 1 }
  let s2 := { s1 with recordings := s1.recordings ++
    [({ id := now, url := url, blob := blob, timestamp := timestamp,
        duration := s1.recordingTime } : Recording)] }
  let s3 := { s2 with recordings := sortRecordings s2.recordings }
  { s3 with recordedChunks := [] }

/-- `stopRecording` (script.js lines 146-157). -/
def stopRecording (s : State) : State :=
  match s.mediaRecorder with
  | none => s
  | some k =>
    if s.isRecording then
      let s1 := recorderStop k s
      let s2 := { s1 with isRecording := false, isPaused := false }
      match s2.recordingInterval with
      | some h => { clearInterval h s2 with recordingInterval := none }
      | none => s2
    else s

/-- `togglePause` (script.js lines 159-169). An exception thrown by `resume()` or `pause()`
leaves the function before the assignment to `isPaused`. -/
def togglePause (s : State) : State :=
  match s.mediaRecorder with
  | none => s
  | some k =>
    if !s.isRecording then s
    else if s.isPaused then
      match recorderResume k s.encoders with
      | none => s
      | some es => { s with encoders := es, isPaused := false }
    else
      match recorderPause k s.encoders with
      | none => s
      | some es => { s with encoders := es, isPaused := true }

/-- `downloadRecording` (script.js lines 171-176): creates and clicks a detached anchor; no
cell of the controller changes. -/
def downloadRecording (_recording : Recording) (s : State) : State :=
  s

/-- `array.findIndex(p)`, with `none` for `-1`. -/
def findIndex {α : Type} (p : α → Bool) : List α → Option Nat
  | [] => none
  | x :: xs => if p x then some 0 else (findIndex p xs).map (fun i => i + 1)

/-- `deleteRecording` (script.js lines 178-184). -/
def deleteRecording (id : Nat) (s : State) : State :=
  match findIndex (fun r => r.id == id) s.recordings with
  | none => s
  | some index =>
    match s.recordings[index]? with
    | none => s
    | some r =>
      let s1 := revokeObjectURL r.url s
      { s1 with recordings := s1.recordings.eraseIdx index }

/-- `stopScreenShare` (script.js lines 67-80). -/
def stopScreenShare (s : State) : State :=
  let s1 := if s.isRecording then stopRecording s else s
  let s2 := match s1.mediaStream with
    | some stream => { stopTracks stream s1 with mediaStream := none }
    | none => s1
  match s2.videoPreview with
  | some _ => { s2 with videoPreview := some none }
  | none => s2

/-- Lines 51-53 of `startScreenShare`: `videoPreview.value.srcObject = mediaStream.value` when
the preview element is there. -/
def bindPreview (s : State) : State :=
  match s.videoPreview with
  | some _ => { s with videoPreview := some s.mediaStream }
  | none => s

/-- Lines 51-60 of `startScreenShare`, run once `mediaStream.value` has been assigned: binds the
preview, calls `startRecording`, and registers the `ended` listener on the first video track;
without such a track line 58 throws into the `catch` of line 61. -/
def startScreenShare_finish (isTypeSupported : String → Bool) (s : State) : State :=
  let s1 := bindPreview s
  let s2 := startRecording isTypeSupported s1
  match s2.mediaStream with
  | none => { s2 with error := screenShareError }
  | some stream =>
    match stream.videoTracks.head? with
    | some track => { s2 with endedListeners := s2.endedListeners ++ [track] }
    | none => { s2 with error := screenShareError }

/-- A capture source hands out a stream: its tracks are live. -/
def acquireStream (m : MediaStreamObj) (s : State) : State :=
  { s with liveTracks := s.liveTracks ++ m.getTracks }

/-- Lines 34-46 of `startScreenShare` from the point where `getUserMedia` settles, followed by
lines 51-60. `cameraResult` is `none` when camera access is refused. -/
def startScreenShare_afterCamera (isTypeSupported : String → Bool)
    (displayStream : MediaStreamObj) (cameraResult : Option MediaStreamObj) (s : State) : State :=
  match cameraResult with
  | some cameraStream =>
    let s1 := acquireStream cameraStream s
    startScreenShare_finish isTypeSupported
      { s1 with mediaStream := some (combineStreams displayStream cameraStream) }
  | none =>
    startScreenShare_finish isTypeSupported { s with mediaStream := some displayStream }

/-- `startScreenShare` (script.js lines 25-65) run without anything else happening at its two
`await`s. `displayResult` is what `getDisplayMedia` settles to and `cameraResult` what
`getUserMedia` settles to (`none`: refused). -/
def startScreenShare (isTypeSupported : String → Bool)
    (displayResult cameraResult : Option MediaStreamObj) (s : State) : State :=
  let s1 := { s with error := "" }
  match displayResult with
  | none => { s1 with error := screenShareError }
  | some displayStream =>
    let s2 := acquireStream displayStream s1
    if s2.recordingMode = "screen-camera" then
      startScreenShare_afterCamera isTypeSupported displayStream cameraResult s2
    else
      startScreenShare_finish isTypeSupported { s2 with mediaStream := some displayStream }

/-- The `onUnmounted` hook (script.js lines 186-194). -/
def onUnmounted (s : State) : State :=
  let s1 := stopScreenShare s
  let s2 := match s1.recordingInterval with
    | some h => clearInterval h s1
    | none => s1
  s2.recordings.foldl (fun acc recording => revokeObjectURL recording.url acc) s2

/-! ## Transition system -/

/-- What can happen to the controller: a call of an exported operation, a change of the
`recordingMode` or `videoPreview` cell by the view, or a callback run by the platform. -/
inductive Action where
  /-- The view writes `recordingMode.value`. -/
  | setRecordingMode (mode : String)
  /-- The view binds the template reference `videoPreview`. -/
  | previewMounted
  /-- `startScreenShare()` is called and runs up to `await getDisplayMedia`. -/
  | callStartScreenShare
  /-- `getDisplayMedia` settles for one suspended call (`none`: rejected). -/
  | displaySettled (result : Option MediaStreamObj)
  /-- `getUserMedia` settles for the `i`-th call suspended there (`none`: rejected). -/
  | cameraSettled (i : Nat) (result : Option MediaStreamObj)
  | callStopScreenShare
  | callStartRecording
  | callStopRecording
  | callTogglePause
  | callDeleteRecording (id : Nat)
  | callDownloadRecording (recording : Recording)
  /-- The interval timer with handle `h` fires. -/
  | timerFired (h : Nat)
  /-- Recorder `k` fires `dataavailable` with `data`. -/
  | dataAvailable (k : Nat) (data : Blob)
  /-- The queued `stop` event of recorder `k` is dispatched at clock value `now`. -/
  | stopFired (k : Nat) (now : Nat) (timestamp : String)
  /-- The source ends track `t`. -/
  | trackEnded (t : Nat)
  /-- The component is disposed of. -/
  | unmounted
deriving DecidableEq

/-- One transition. A callback whose source does not exist (timer not armed, recorder without
queued event, no suspended call) leaves the state as it is. -/
def step (isTypeSupported : String → Bool) (s : State) : Action → State
  | Action.setRecordingMode mode => { s with recordingMode := mode }
  | Action.previewMounted =>
    match s.videoPreview with
    | none => { s with videoPreview := some none }
    | some _ => s
  | Action.callStartScreenShare =>
    { s with error := "", awaitingDisplay := s.awaitingDisplay + 1 }
  | Action.displaySettled result =>
    if s.awaitingDisplay = 0 then s
    else
      let s1 := { s with awaitingDisplay := s.awaitingDisplay - 1 }
      match result with
      | none => { s1 with error := screenShareError }
      | some displayStream =>
        let s2 := acquireStream displayStream s1
        if s2.recordingMode = "screen-camera" then
          { s2 with awaitingCamera := s2.awaitingCamera ++ [displayStream] }
        else
          startScreenShare_finish isTypeSupported { s2 with mediaStream := some displayStream }
  | Action.cameraSettled i result =>
    match s.awaitingCamera[i]? with
    | none => s
    | some displayStream =>
      startScreenShare_afterCamera isTypeSupported displayStream result
        { s with awaitingCamera := s.awaitingCamera.eraseIdx i }
  | Action.callStopScreenShare => stopScreenShare s
  | Action.callStartRecording => startRecording isTypeSupported s
  | Action.callStopRecording => stopRecording s
  | Action.callTogglePause => togglePause s
  | Action.callDeleteRecording id => deleteRecording id s
  | Action.callDownloadRecording recording => downloadRecording recording s
  | Action.timerFired h => if s.timers.contains h then timerCallback s else s
  | Action.dataAvailable k data =>
    if k < s.encoders.length ∧
        (recorderState k s.encoders ≠ RecorderState.inactive ∨ s.pendingStop.contains k) then
      ondataavailable data s
    else s
  | Action.stopFired k now timestamp =>
    if s.pendingStop.contains k then
      onstop now timestamp { s with pendingStop := s.pendingStop.erase k }
    else s
  | Action.trackEnded t =>
    let s1 := { s with liveTracks := s.liveTracks.erase t }
    (s1.endedListeners.filter (fun u => u == t)).foldl (fun acc _ => stopScreenShare acc) s1
  | Action.unmounted => onUnmounted s

/-- Runs a list of actions, first to last. -/
def run (isTypeSupported : String → Bool) (s : State) (actions : List Action) : State :=
  actions.foldl (step isTypeSupported) s

/-- States the controller can be in: the initial one and whatever a transition makes of a
reachable one. -/
inductive Reachable (isTypeSupported : String → Bool) : State → Prop where
  | init : Reachable isTypeSupported initialState
  | step {s : State} (a : Action) :
      Reachable isTypeSupported s → Reachable isTypeSupported (step isTypeSupported s a)

/-- Number of recorders that are recording or paused, i.e. not inactive. -/
def activeEncoders (s : State) : Nat :=
  (s.encoders.filter (fun r => r.state != RecorderState.inactive)).length

/-- Number of armed interval timers. -/
def armedTimers (s : State) : Nat :=
  s.timers.length

/-- Handles created by `URL.createObjectURL` and not passed to `URL.revokeObjectURL` yet. -/
def unreleasedUrls (s : State) : List Nat :=
  (List.range s.nextUrl).filter (fun u => !(s.revoked.contains u))

/-- Live tracks that do not belong to the stream in `mediaStream.value`. -/
def orphanTracks (s : State) : List Nat :=
  match s.mediaStream with
  | some m => s.liveTracks.filter (fun t => !(m.getTracks.contains t))
  | none => s.liveTracks

/-- A platform on which `MediaRecorder.isTypeSupported` accepts WebM only. -/
def webmOnly (type : String) : Bool :=
  type == "video/webm"

/-- A platform on which `MediaRecorder.isTypeSupported` accepts nothing. -/
def noneSupported (_type : String) : Bool :=
  false

/-- A display stream with video track 1 and audio track 2. -/
def display1 : MediaStreamObj :=
  { videoTracks := [1], audioTracks := [2] }

/-- A second display stream with video track 3 and audio track 4. -/
def display2 : MediaStreamObj :=
  { videoTracks := [3], audioTracks := [4] }

/-- A recording session is on for recorder `k`: the controller refers to it, the running flag
is set and the recorder is not inactive. -/
def SessionLive (k : Nat) (s : State) : Prop :=
  s.mediaRecorder = some k ∧ s.isRecording = true ∧
    recorderState k s.encoders ≠ RecorderState.inactive

/-- Whether an action is the firing of an interval timer. -/
def isTick : Action → Bool
  | Action.timerFired _ => true
  | _ => false

/-- Number of timer firings in a run from `s` at whose moment `isPaused.value` was false. -/
def unpausedTicks (isTypeSupported : String → Bool) : State → List Action → Nat
  | _, [] => 0
  | s, a :: rest =>
    (if isTick a && !s.isPaused then 1 else 0) +
      unpausedTicks isTypeSupported (step isTypeSupported s a) rest

/-- The scenario of the specification: three ticks, pause, two ticks, resume, two ticks, on the
timer with handle `h`. -/
def pauseScenario (h : Nat) : List Action :=
  [Action.timerFired h, Action.timerFired h, Action.timerFired h, Action.callTogglePause,
   Action.timerFired h, Action.timerFired h, Action.callTogglePause,
   Action.timerFired h, Action.timerFired h]

/-- The initial state with the capture stream `display1` held. -/
def capturingState : State :=
  { initialState with mediaStream := some display1, liveTracks := [1, 2] }

/-- First fragment. -/
def fragment1 : Blob :=
  { bytes := [10, 11], type := "video/webm" }

/-- Second fragment. -/
def fragment2 : Blob :=
  { bytes := [20], type := "video/webm" }

/-- Third fragment. -/
def fragment3 : Blob :=
  { bytes := [30, 31, 32], type := "video/webm" }

/-- Capture started on a WebM-only platform, three fragments delivered, `stopRecording` called:
the `stop` event of recorder 0 is queued. -/
def stoppedWithFragments : State :=
  run webmOnly initialState
    [Action.callStartScreenShare, Action.displaySettled (some display1),
     Action.dataAvailable 0 fragment1, Action.dataAvailable 0 fragment2,
     Action.dataAvailable 0 fragment3, Action.timerFired 1, Action.callStopRecording]

/-- Adjacent-pair form of "sorted by identifier, descending". -/
def SortedByIdDesc (rs : List Recording) : Prop :=
  ∀ (i : Nat) (a b : Recording), rs[i]? = some a → rs[i + 1]? = some b → b.id ≤ a.id

/-- The flags are consistent: a running recording has a capture stream and a recorder, and the
paused flag is set only while the running flag is. -/
def FlagsConsistent (s : State) : Prop :=
  (s.isRecording = true → s.mediaStream.isSome = true) ∧
  (s.isPaused = true → s.isRecording = true) ∧
  (s.isRecording = true → s.mediaRecorder.isSome = true)

/-- Capture started on a WebM-only platform and the recording paused. -/
def pausedRecordingState : State :=
  run webmOnly initialState
    [Action.callStartScreenShare, Action.displaySettled (some display1),
     Action.callTogglePause]

/-- Two recordings finalized one after the other, at clock values 100 and 200. -/
def twoRecordingsState : State :=
  run webmOnly initialState
    [Action.callStartScreenShare, Action.displaySettled (some display1),
     Action.dataAvailable 0 fragment1, Action.callStopRecording, Action.stopFired 0 100 "first",
     Action.callStartRecording, Action.dataAvailable 1 fragment2, Action.callStopRecording,
     Action.stopFired 1 200 "second"]

/-- Capture started on a WebM-only platform and one fragment delivered: recorder 0 is
recording and timer 1 is armed. -/
def recordingState : State :=
  run webmOnly initialState
    [Action.callStartScreenShare, Action.displaySettled (some display1),
     Action.dataAvailable 0 fragment1]

/-- Teardown while recorder 0 is still recording, followed by the dispatch of the `stop` event
that the teardown's `recorder.stop()` queued. -/
def teardownThenFinalize : List Action :=
  [Action.unmounted, Action.stopFired 0 100 "late"]

/-- `startRecording` called a second time while the first recording is running. -/
def doubleStartState : State :=
  run webmOnly recordingState [Action.callStartRecording]

/-- `startScreenShare` called, and granted `display2`, while the first recording is running. -/
def doubleShareState : State :=
  run webmOnly recordingState
    [Action.callStartScreenShare, Action.displaySettled (some display2)]

/-! ## Theorems -/

theorem recorderState_setRecorderState (k : Nat) (st : RecorderState)
    (es : List MediaRecorderObj) (h : recorderState k es ≠ RecorderState.inactive) :
    recorderState k (setRecorderState k st es) = st := by
  unfold recorderState setRecorderState at *
  cases hk : es[k]? with
  | none => simp [hk] at h
  | some r => simp [hk]

theorem selectMimeType_isSome (f : String → Bool) (l : List String)
    (h : ∃ t ∈ l, f t = true) : ∃ m, selectMimeType f l = some m := by
  induction l with
  | nil => simp at h
  | cons a l ih =>
    by_cases ha : f a = true
    · exact ⟨a, by simp [selectMimeType, ha]⟩
    · obtain ⟨t, ht, hft⟩ := h
      have : t ∈ l := by
        rcases List.mem_cons.1 ht with rfl | h'
        · exact absurd hft ha
        · exact h'
      obtain ⟨m, hm⟩ := ih ⟨t, this, hft⟩
      exact ⟨m, by simp [selectMimeType, ha, hm]⟩

theorem startRecording_sessionLive (f : String → Bool) (s : State)
    (hstream : s.mediaStream.isSome = true) (hfmt : ∃ t ∈ possibleMimeTypes, f t = true) :
    SessionLive s.encoders.length (startRecording f s) ∧
      (startRecording f s).recordingTime = 0 ∧
      (startRecording f s).timers = s.timers ++ [s.nextTimer] ∧
      (startRecording f s).recordingInterval = some s.nextTimer := by
  obtain ⟨m, hm⟩ := selectMimeType_isSome f _ hfmt
  obtain ⟨st, hst⟩ := Option.isSome_iff_exists.1 hstream
  simp [startRecording, hst, hm, recorderStart, SessionLive, recorderState]

theorem togglePause_sessionLive (k : Nat) (s : State) (h : SessionLive k s) :
    SessionLive k (togglePause s) ∧ (togglePause s).recordingTime = s.recordingTime ∧
      (togglePause s).timers = s.timers ∧ (togglePause s).isPaused = !s.isPaused := by
  obtain ⟨h1, h2, h3⟩ := h
  have hset : ∀ st, st ≠ RecorderState.inactive →
      recorderState k (setRecorderState k st s.encoders) ≠ RecorderState.inactive := by
    intro st hne
    rw [recorderState_setRecorderState k st s.encoders h3]; exact hne
  cases hp : s.isPaused <;> cases hr : recorderState k s.encoders
  · exact absurd hr h3
  · have e : togglePause s =
        { s with encoders := setRecorderState k RecorderState.paused s.encoders
                 isPaused := true } := by
      simp [togglePause, h1, h2, hp, recorderPause, hr]
    rw [e]
    exact ⟨⟨h1, h2, hset RecorderState.paused (by decide)⟩, rfl, rfl, rfl⟩
  · have e : togglePause s = { s with encoders := s.encoders, isPaused := true } := by
      simp [togglePause, h1, h2, hp, recorderPause, hr]
    rw [e]
    exact ⟨⟨h1, h2, h3⟩, rfl, rfl, rfl⟩
  · exact absurd hr h3
  · have e : togglePause s = { s with encoders := s.encoders, isPaused := false } := by
      simp [togglePause, h1, h2, hp, recorderResume, hr]
    rw [e]
    exact ⟨⟨h1, h2, h3⟩, rfl, rfl, rfl⟩
  · have e : togglePause s =
        { s with encoders := setRecorderState k RecorderState.recording s.encoders
                 isPaused := false } := by
      simp [togglePause, h1, h2, hp, recorderResume, hr]
    rw [e]
    exact ⟨⟨h1, h2, hset RecorderState.recording (by decide)⟩, rfl, rfl, rfl⟩

theorem roundToDouble_of_le (m : Nat) (h : m ≤ 2 ^ 53) : roundToDouble m = m := by
  unfold roundToDouble doubleExactBound
  rw [if_pos h]

theorem incrementDouble_absorbed : incrementDouble (2 ^ 53) = 2 ^ 53 := by
  have hne : 2 ^ 53 + 1 ≠ 0 := by norm_num
  have h : Nat.log2 (2 ^ 53 + 1) = 53 :=
    Nat.le_antisymm (Nat.lt_succ_iff.1 ((Nat.log2_lt hne).2 (by norm_num)))
      ((Nat.le_log2 hne).2 (by norm_num))
  unfold incrementDouble roundToDouble doubleExactBound
  simp only [h]
  norm_num

theorem run_recordingTime (f : String → Bool) (k : Nat) (evs : List Action) :
    ∀ s : State, SessionLive k s →
      (∀ a ∈ evs, a = Action.callTogglePause ∨ ∃ h ∈ s.timers, a = Action.timerFired h) →
      s.recordingTime + unpausedTicks f s evs < 2 ^ 53 →
      (run f s evs).recordingTime = s.recordingTime + unpausedTicks f s evs := by
  induction evs with
  | nil => intro s _ _ _; simp [run, unpausedTicks]
  | cons a evs ih =>
    intro s hlive hev hbound
    have ha := hev a (List.mem_cons_self _ _)
    have hrun : run f s (a :: evs) = run f (step f s a) evs := rfl
    rcases ha with rfl | ⟨h, hh, rfl⟩
    · obtain ⟨hl, ht, htm, _⟩ := togglePause_sessionLive k s hlive
      have hstep : step f s Action.callTogglePause = togglePause s := rfl
      have hcount : unpausedTicks f s (Action.callTogglePause :: evs) =
          unpausedTicks f (togglePause s) evs := by
        simp [unpausedTicks, isTick, hstep]
      rw [hcount] at hbound ⊢
      rw [hrun, hstep]
      have := ih (togglePause s) hl (by
        intro b hb
        rw [htm]
        exact hev b (List.mem_cons_of_mem _ hb)) (by rw [ht]; exact hbound)
      rw [this, ht]
    · cases hp : s.isPaused
      · have hcount : unpausedTicks f s (Action.timerFired h :: evs) =
            1 + unpausedTicks f (step f s (Action.timerFired h)) evs := by
          simp [unpausedTicks, isTick, hp]
        rw [hcount] at hbound ⊢
        have hlt : s.recordingTime + 1 < 2 ^ 53 := by omega
        have hstep : step f s (Action.timerFired h) =
            { s with recordingTime := s.recordingTime + 1 } := by
          simp [step, hh, timerCallback, hp, incrementDouble,
            roundToDouble_of_le _ (Nat.le_of_lt hlt)]
        rw [hstep] at hbound
        rw [hrun, hstep]
        have hl : SessionLive k { s with recordingTime := s.recordingTime + 1 } := hlive
        have := ih { s with recordingTime := s.recordingTime + 1 } hl (by
          intro b hb
          exact hev b (List.mem_cons_of_mem _ hb)) (by
          show s.recordingTime + 1 + _ < 2 ^ 53
          omega)
        rw [this]
        show s.recordingTime + 1 + _ = _
        omega
      · have hstep : step f s (Action.timerFired h) = s := by
          simp [step, hh, timerCallback, hp]
        have hcount : unpausedTicks f s (Action.timerFired h :: evs) =
            unpausedTicks f s evs := by
          simp [unpausedTicks, isTick, hp, hstep]
        rw [hcount] at hbound ⊢
        rw [hrun, hstep]
        exact ih s hlive (fun b hb => hev b (List.mem_cons_of_mem _ hb)) hbound

/-- C1: after a successful `startRecording` (capture stream held, some candidate format
supported), for every sequence of firings of armed timers and `togglePause` calls with fewer
than `2 ^ 53` firings while not paused, the elapsed counter equals the number of firings at
whose moment the paused flag was false; a single firing adds exactly 1 when not paused and the
counter is below `2 ^ 53`, and leaves the counter as it is when paused. (The counter is a
double: from `2 ^ 53` on, `recordingTime.value++` no longer changes it.) -/
theorem elapsed_counts_unpaused_ticks (f : String → Bool) (s : State) (evs : List Action)
    (hstream : s.mediaStream.isSome = true)
    (hfmt : ∃ t ∈ possibleMimeTypes, f t = true)
    (hevs : ∀ a ∈ evs, a = Action.callTogglePause ∨
      ∃ h ∈ (startRecording f s).timers, a = Action.timerFired h)
    (hbound : unpausedTicks f (startRecording f s) evs < 2 ^ 53) :
    (run f (startRecording f s) evs).recordingTime =
        unpausedTicks f (startRecording f s) evs ∧
      (∀ (u : State) (h : Nat), h ∈ u.timers → u.recordingTime < 2 ^ 53 →
        (step f u (Action.timerFired h)).recordingTime =
          if u.isPaused then u.recordingTime else u.recordingTime + 1) ∧
      (∀ (u : State) (h : Nat), h ∈ u.timers → u.isPaused = true →
        (step f u (Action.timerFired h)).recordingTime = u.recordingTime) := by
  obtain ⟨hl, h0, _, _⟩ := startRecording_sessionLive f s hstream hfmt
  refine ⟨?_, ?_, ?_⟩
  · rw [run_recordingTime f _ evs _ hl hevs (by rw [h0]; omega), h0]; simp
  · intro u h hh hlt
    cases hp : u.isPaused
    · have hr : roundToDouble (u.recordingTime + 1) = u.recordingTime + 1 :=
        roundToDouble_of_le _ hlt
      simp [step, hh, timerCallback, hp, incrementDouble, hr]
    · simp [step, hh, timerCallback, hp]
  · intro u h hh hp
    simp [step, hh, timerCallback, hp]

/-- Witness for C1: start, 3 ticks, pause, 2 ticks, resume, 2 ticks gives elapsed = 5. -/
theorem elapsed_counts_unpaused_ticks_witness :
    (run webmOnly (startRecording webmOnly capturingState) (pauseScenario 1)).recordingTime
      = 5 :=
  (elapsed_counts_unpaused_ticks webmOnly capturingState (pauseScenario 1) (by decide)
    ⟨"video/webm", by decide, by decide⟩ (by decide) (by decide)).1.trans (by decide)

theorem concatBytes_eq_join (parts : List Blob) :
    concatBytes parts = (parts.map Blob.bytes).flatten := by
  induction parts with
  | nil => rfl
  | cons b bs ih => simp [concatBytes, ih]

theorem sortRecordings_perm (rs : List Recording) : (sortRecordings rs).Perm rs :=
  List.perm_insertionSort _ rs

theorem step_stopFired (f : String → Bool) (s : State) (k now : Nat) (timestamp : String)
    (hk : k ∈ s.pendingStop) :
    step f s (Action.stopFired k now timestamp) =
      onstop now timestamp { s with pendingStop := s.pendingStop.erase k } := by
  simp [step, hk]

/-- C2: when the queued `stop` event of a recorder is dispatched, whatever fragment buffer
`[f1, ..., fn]` is held at that moment, the collection afterwards is the old collection plus
exactly one new Recording (up to the order the sort gives), that Recording's blob holds the
bytes of `f1, ..., fn` one after the other in buffer order, its duration is the elapsed-seconds
counter, and the fragment buffer is empty afterwards. -/
theorem onstop_builds_one_recording (f : String → Bool) (s : State) (k now : Nat)
    (timestamp : String) (hk : k ∈ s.pendingStop) :
    ∃ r : Recording,
      (step f s (Action.stopFired k now timestamp)).recordings.Perm (r :: s.recordings) ∧
      (step f s (Action.stopFired k now timestamp)).recordings.length =
        s.recordings.length + 1 ∧
      r.blob.bytes = (s.recordedChunks.map Blob.bytes).flatten ∧
      r.duration = s.recordingTime ∧
      r.id = now ∧
      (step f s (Action.stopFired k now timestamp)).recordedChunks = [] := by
  refine ⟨{ id := now, url := s.nextUrl, blob := Blob.ofParts s.recordedChunks "video/webm",
            timestamp := timestamp, duration := s.recordingTime }, ?_, ?_, ?_, rfl, rfl, ?_⟩
  · rw [step_stopFired f s k now timestamp hk]
    exact (sortRecordings_perm _).trans (List.perm_append_singleton _ _)
  · rw [step_stopFired f s k now timestamp hk]
    simp only [onstop]
    rw [(sortRecordings_perm _).length_eq]; simp
  · simp [Blob.ofParts, concatBytes_eq_join]
  · rw [step_stopFired f s k now timestamp hk]; rfl

/-- Witness for C2: fragments `[10,11]`, `[20]`, `[30,31,32]` buffered, recorder 0 stopped. -/
theorem onstop_builds_one_recording_witness :
    ∃ r : Recording,
      (step webmOnly stoppedWithFragments (Action.stopFired 0 1700 "now")).recordings.Perm
        (r :: stoppedWithFragments.recordings) ∧
      (step webmOnly stoppedWithFragments (Action.stopFired 0 1700 "now")).recordings.length =
        stoppedWithFragments.recordings.length + 1 ∧
      r.blob.bytes = (stoppedWithFragments.recordedChunks.map Blob.bytes).flatten ∧
      r.duration = stoppedWithFragments.recordingTime ∧
      r.id = 1700 ∧
      (step webmOnly stoppedWithFragments (Action.stopFired 0 1700 "now")).recordedChunks = [] :=
  onstop_builds_one_recording webmOnly stoppedWithFragments 0 1700 "now" (by decide)

theorem newestFirst_total : IsTotal Recording newestFirst :=
  ⟨fun a b => by unfold newestFirst compareRecordings; omega⟩

theorem newestFirst_trans : IsTrans Recording newestFirst :=
  ⟨fun a b c => by unfold newestFirst compareRecordings; omega⟩

theorem sortRecordings_pairwise (rs : List Recording) :
    (sortRecordings rs).Pairwise (fun a b => b.id ≤ a.id) := by
  have h : (sortRecordings rs).Sorted newestFirst :=
    @List.sorted_insertionSort _ newestFirst _ newestFirst_total newestFirst_trans rs
  exact List.Pairwise.imp (fun {a b} hab => by
    unfold newestFirst compareRecordings at hab; omega) h

theorem pairwise_sortedByIdDesc (rs : List Recording)
    (h : rs.Pairwise (fun a b => b.id ≤ a.id)) : SortedByIdDesc rs := by
  intro i a b ha hb
  obtain ⟨hi, rfl⟩ := List.getElem?_eq_some_iff.1 ha
  obtain ⟨hj, rfl⟩ := List.getElem?_eq_some_iff.1 hb
  exact List.pairwise_iff_getElem.1 h i (i + 1) hi hj (Nat.lt_succ_self i)

theorem togglePause_shape (s : State) :
    ∃ es p, togglePause s = { s with encoders := es, isPaused := p } ∧
      (p = s.isPaused ∨ s.isRecording = true) := by
  unfold togglePause
  split
  · exact ⟨s.encoders, s.isPaused, rfl, Or.inl rfl⟩
  · split
    · exact ⟨s.encoders, s.isPaused, rfl, Or.inl rfl⟩
    · rename_i hr
      have hr' : s.isRecording = true := by simpa using hr
      split
      · split
        · exact ⟨s.encoders, s.isPaused, rfl, Or.inl rfl⟩
        · exact ⟨_, false, rfl, Or.inr hr'⟩
      · split
        · exact ⟨s.encoders, s.isPaused, rfl, Or.inl rfl⟩
        · exact ⟨_, true, rfl, Or.inr hr'⟩

theorem recorderStop_shape (k : Nat) (s : State) :
    ∃ es ps, recorderStop k s = { s with encoders := es, pendingStop := ps } := by
  unfold recorderStop
  split
  · exact ⟨s.encoders, s.pendingStop, rfl⟩
  · exact ⟨_, _, rfl⟩

theorem stopRecording_shape (s : State) :
    (stopRecording s = s ∧ (s.mediaRecorder = none ∨ s.isRecording = false)) ∨
    ∃ es ps ts ri, stopRecording s =
      { s with encoders := es, pendingStop := ps, isRecording := false, isPaused := false,
               timers := ts, recordingInterval := ri } := by
  unfold stopRecording
  split
  · exact Or.inl ⟨rfl, Or.inl ‹_›⟩
  · split
    · right
      obtain ⟨es, ps, h⟩ := recorderStop_shape ‹Nat› s
      simp only [h]
      split
      · exact ⟨_, _, _, _, rfl⟩
      · exact ⟨_, _, _, _, rfl⟩
    · exact Or.inl ⟨rfl, Or.inr (by simpa using ‹¬s.isRecording = true›)⟩

theorem recorderStart_fresh (es : List MediaRecorderObj) (r : MediaRecorderObj)
    (h : r.state = RecorderState.inactive) :
    recorderStart es.length 1000 (es ++ [r]) =
      some (es ++ [{ r with state := RecorderState.recording, timeslice := some 1000 }]) := by
  unfold recorderStart
  simp [h]
  induction es with
  | nil => rfl
  | cons a es ih => simp [ih]

theorem startRecording_shape (f : String → Bool) (s : State) :
    (startRecording f s = s ∧ s.mediaStream = none) ∨
    (startRecording f s = { s with recordedChunks := [], error := startRecordingError } ∧
      selectMimeType f possibleMimeTypes = none) ∨
    (∃ stream m, s.mediaStream = some stream ∧ selectMimeType f possibleMimeTypes = some m ∧
      startRecording f s =
        { s with
          recordedChunks := []
          encoders := s.encoders ++
            [({ stream := stream, mimeType := m, videoBitsPerSecond := 8000000,
                timeslice := some 1000, state := RecorderState.recording } : MediaRecorderObj)]
          mediaRecorder := some s.encoders.length
          isRecording := true
          recordingTime := 0
          recordingInterval := some s.nextTimer
          timers := s.timers ++ [s.nextTimer]
          nextTimer := s.nextTimer + 1 }) := by
  unfold startRecording
  split
  · exact Or.inl ⟨rfl, ‹_›⟩
  · rename_i stream hst
    split
    · exact Or.inr (Or.inl ⟨rfl, ‹_›⟩)
    · rename_i m hm
      refine Or.inr (Or.inr ⟨stream, m, hst, hm, ?_⟩)
      simp only []
      rw [recorderStart_fresh s.encoders
        ⟨stream, m, 8000000, none, RecorderState.inactive⟩ rfl]

theorem stopScreenShare_shape (s : State) :
    ∃ lt vp, stopScreenShare s =
      { (if s.isRecording then stopRecording s else s) with
        mediaStream := none, liveTracks := lt, videoPreview := vp } := by
  unfold stopScreenShare
  generalize (if s.isRecording then stopRecording s else s) = s1
  simp only
  rcases hms : s1.mediaStream with _ | m <;> rcases hvp : s1.videoPreview with _ | v
  · exact ⟨s1.liveTracks, none, by cases s1; simp_all⟩
  · exact ⟨s1.liveTracks, some none, by cases s1; simp_all⟩
  · exact ⟨s1.liveTracks.filter (fun t => !(m.getTracks.contains t)), none, by
      cases s1; simp_all [stopTracks]⟩
  · exact ⟨s1.liveTracks.filter (fun t => !(m.getTracks.contains t)), some none, by
      cases s1; simp_all [stopTracks]⟩

theorem startScreenShare_finish_shape (f : String → Bool) (s : State) :
    ∃ vp el er, startScreenShare_finish f s =
      { startRecording f { s with videoPreview := vp } with
        endedListeners := el, error := er } := by
  have e : ∃ vp, bindPreview s = { s with videoPreview := vp } := by
    unfold bindPreview
    split
    · exact ⟨_, rfl⟩
    · exact ⟨none, by cases s; simp_all⟩
  obtain ⟨vp, e⟩ := e
  unfold startScreenShare_finish
  simp only []
  rw [e]
  refine ⟨vp, ?_⟩
  split
  · exact ⟨_, _, rfl⟩
  · split
    · exact ⟨_, _, rfl⟩
    · exact ⟨_, _, rfl⟩

theorem startRecording_flags (f : String → Bool) (s : State) (h : FlagsConsistent s) :
    FlagsConsistent (startRecording f s) := by
  rcases startRecording_shape f s with ⟨e, _⟩ | ⟨e, _⟩ | ⟨stream, m, hs, _, e⟩
  · rw [e]; exact h
  · rw [e]; exact h
  · rw [e]; exact ⟨fun _ => by simp [hs], fun _ => rfl, fun _ => rfl⟩

theorem stopRecording_flags (s : State) (h : FlagsConsistent s) :
    FlagsConsistent (stopRecording s) ∧ (stopRecording s).isRecording = false ∧
      (stopRecording s).mediaStream = s.mediaStream := by
  obtain ⟨h1, h2, h3⟩ := h
  rcases stopRecording_shape s with ⟨e, hn⟩ | ⟨es, ps, ts, ri, e⟩
  · rw [e]
    have hr : s.isRecording = false := by
      rcases hn with hn | hn
      · cases hr : s.isRecording
        · rfl
        · have := h3 hr; simp [hn] at this
      · exact hn
    exact ⟨⟨h1, h2, h3⟩, hr, rfl⟩
  · rw [e]
    exact ⟨⟨fun h => by simp at h, fun h => by simp at h, fun h => by simp at h⟩, rfl, rfl⟩

theorem stopScreenShare_flags (s : State) (h : FlagsConsistent s) :
    FlagsConsistent (stopScreenShare s) ∧ (stopScreenShare s).isRecording = false ∧
      (stopScreenShare s).mediaStream = none := by
  obtain ⟨lt, vp, e⟩ := stopScreenShare_shape s
  rw [e]
  have key : FlagsConsistent (if s.isRecording then stopRecording s else s) ∧
      (if s.isRecording then stopRecording s else s).isRecording = false := by
    cases hr : s.isRecording
    · exact ⟨by simpa using h, by simpa using hr⟩
    · have := stopRecording_flags s h
      exact ⟨by simpa using this.1, by simpa using this.2.1⟩
  obtain ⟨⟨k1, k2, k3⟩, k4⟩ := key
  refine ⟨⟨fun hh => ?_, k2, k3⟩, k4, rfl⟩
  have : (if s.isRecording then stopRecording s else s).isRecording = true := hh
  rw [k4] at this; cases this

theorem startScreenShare_finish_flags (f : String → Bool) (s : State)
    (hs : s.mediaStream.isSome = true) (h2 : s.isPaused = true → s.isRecording = true)
    (h3 : s.isRecording = true → s.mediaRecorder.isSome = true) :
    FlagsConsistent (startScreenShare_finish f s) := by
  obtain ⟨vp, el, er, e⟩ := startScreenShare_finish_shape f s
  rw [e]
  exact startRecording_flags f { s with videoPreview := vp } ⟨fun _ => hs, h2, h3⟩

theorem startScreenShare_afterCamera_flags (f : String → Bool) (d : MediaStreamObj)
    (c : Option MediaStreamObj) (s : State) (h : FlagsConsistent s) :
    FlagsConsistent (startScreenShare_afterCamera f d c s) := by
  unfold startScreenShare_afterCamera
  split
  · exact startScreenShare_finish_flags f _ rfl h.2.1 h.2.2
  · exact startScreenShare_finish_flags f _ rfl h.2.1 h.2.2

theorem togglePause_flags (s : State) (h : FlagsConsistent s) :
    FlagsConsistent (togglePause s) := by
  obtain ⟨es, p, e, hp⟩ := togglePause_shape s
  rw [e]
  refine ⟨h.1, fun hh => ?_, h.2.2⟩
  rcases hp with hp | hp
  · have hh' : p = true := hh
    exact h.2.1 (by rw [← hp]; exact hh')
  · exact hp

theorem foldl_revoke_frame (l : List Recording) (s : State) :
    l.foldl (fun acc recording => revokeObjectURL recording.url acc) s =
      { s with revoked := s.revoked ++ l.map Recording.url } := by
  induction l generalizing s with
  | nil => simp
  | cons a l ih =>
    rw [List.foldl_cons, ih]
    simp [revokeObjectURL]

theorem onUnmounted_shape (s : State) :
    ∃ ts, onUnmounted s =
      { stopScreenShare s with
        timers := ts
        revoked := (stopScreenShare s).revoked ++ (stopScreenShare s).recordings.map Recording.url } := by
  unfold onUnmounted
  simp only [foldl_revoke_frame]
  split
  · exact ⟨_, rfl⟩
  · exact ⟨_, rfl⟩

theorem onUnmounted_flags (s : State) (h : FlagsConsistent s) :
    FlagsConsistent (onUnmounted s) := by
  obtain ⟨ts, e⟩ := onUnmounted_shape s
  rw [e]
  exact (stopScreenShare_flags s h).1

theorem foldl_stopScreenShare_flags (l : List Nat) (s : State) (h : FlagsConsistent s) :
    FlagsConsistent (l.foldl (fun acc _ => stopScreenShare acc) s) := by
  induction l generalizing s with
  | nil => exact h
  | cons a l ih => exact ih _ (stopScreenShare_flags s h).1

theorem deleteRecording_shape (id : Nat) (s : State) :
    ∃ rs rv, deleteRecording id s = { s with recordings := rs, revoked := rv } ∧
      rs.Sublist s.recordings := by
  unfold deleteRecording
  split
  · exact ⟨_, _, rfl, List.Sublist.refl _⟩
  · split
    · exact ⟨_, _, rfl, List.Sublist.refl _⟩
    · exact ⟨_, _, rfl, List.eraseIdx_sublist _ _⟩

theorem step_flags (f : String → Bool) (s : State) (a : Action) (h : FlagsConsistent s) :
    FlagsConsistent (step f s a) := by
  cases a with
  | setRecordingMode mode => exact h
  | previewMounted => simp only [step]; split <;> exact h
  | callStartScreenShare => exact h
  | displaySettled result =>
    simp only [step]
    split
    · exact h
    · split
      · exact h
      · split
        · exact h
        · exact startScreenShare_finish_flags f _ rfl h.2.1 h.2.2
  | cameraSettled i result =>
    simp only [step]
    split
    · exact h
    · exact startScreenShare_afterCamera_flags f _ _ _ h
  | callStopScreenShare => exact (stopScreenShare_flags s h).1
  | callStartRecording => exact startRecording_flags f s h
  | callStopRecording => exact (stopRecording_flags s h).1
  | callTogglePause => exact togglePause_flags s h
  | callDeleteRecording id =>
    obtain ⟨rs, rv, e, _⟩ := deleteRecording_shape id s
    simp only [step]; rw [e]; exact h
  | callDownloadRecording r => exact h
  | timerFired t =>
    simp only [step, timerCallback]
    split
    · split
      · exact h
      · exact h
    · exact h
  | dataAvailable k data =>
    simp only [step, ondataavailable]
    split
    · split
      · exact h
      · exact h
    · exact h
  | stopFired k now ts =>
    simp only [step]
    split
    · exact h
    · exact h
  | trackEnded t => exact foldl_stopScreenShare_flags _ _ h
  | unmounted => exact onUnmounted_flags s h

theorem startScreenShare_finish_recordings (f : String → Bool) (u : State) :
    (startScreenShare_finish f u).recordings = u.recordings := by
  obtain ⟨vp, el, er, e⟩ := startScreenShare_finish_shape f u
  rw [e]
  rcases startRecording_shape f { u with videoPreview := vp } with
    ⟨e, _⟩ | ⟨e, _⟩ | ⟨_, _, _, _, e⟩ <;> rw [e]

theorem stopRecording_recordings (u : State) :
    (stopRecording u).recordings = u.recordings := by
  rcases stopRecording_shape u with ⟨e, _⟩ | ⟨_, _, _, _, e⟩ <;> rw [e]

theorem stopScreenShare_recordings (u : State) :
    (stopScreenShare u).recordings = u.recordings := by
  obtain ⟨lt, vp, e⟩ := stopScreenShare_shape u
  rw [e]
  cases hr : u.isRecording
  · rfl
  · exact stopRecording_recordings u

theorem foldl_stopScreenShare_recordings (l : List Nat) (u : State) :
    (l.foldl (fun acc _ => stopScreenShare acc) u).recordings = u.recordings := by
  induction l generalizing u with
  | nil => rfl
  | cons a l ih => rw [List.foldl_cons, ih, stopScreenShare_recordings]

theorem step_recordings_pairwise (f : String → Bool) (s : State) (a : Action)
    (h : s.recordings.Pairwise (fun a b => b.id ≤ a.id)) :
    (step f s a).recordings.Pairwise (fun a b => b.id ≤ a.id) := by
  have hfin := startScreenShare_finish_recordings f
  have hstopRec := stopRecording_recordings
  have hstop := stopScreenShare_recordings
  cases a with
  | setRecordingMode mode => exact h
  | previewMounted => simp only [step]; split <;> exact h
  | callStartScreenShare => exact h
  | displaySettled result =>
    simp only [step]
    split
    · exact h
    · split
      · exact h
      · split
        · exact h
        · rw [hfin]; exact h
  | cameraSettled i result =>
    simp only [step, startScreenShare_afterCamera]
    split
    · exact h
    · split
      · rw [hfin]; exact h
      · rw [hfin]; exact h
  | callStopScreenShare => simp only [step]; rw [hstop]; exact h
  | callStartRecording =>
    simp only [step]
    rcases startRecording_shape f s with ⟨e, _⟩ | ⟨e, _⟩ | ⟨_, _, _, _, e⟩ <;> rw [e] <;> exact h
  | callStopRecording => simp only [step]; rw [hstopRec]; exact h
  | callTogglePause =>
    obtain ⟨es, p, e, _⟩ := togglePause_shape s
    simp only [step]; rw [e]; exact h
  | callDeleteRecording id =>
    obtain ⟨rs, rv, e, hsub⟩ := deleteRecording_shape id s
    simp only [step]; rw [e]
    exact List.Pairwise.sublist hsub h
  | callDownloadRecording r => exact h
  | timerFired t =>
    simp only [step, timerCallback]
    split
    · split
      · exact h
      · exact h
    · exact h
  | dataAvailable k data =>
    simp only [step, ondataavailable]
    split
    · split
      · exact h
      · exact h
    · exact h
  | stopFired k now ts =>
    simp only [step]
    split
    · exact sortRecordings_pairwise _
    · exact h
  | trackEnded t =>
    simp only [step]
    rw [foldl_stopScreenShare_recordings]; exact h
  | unmounted =>
    obtain ⟨ts, e⟩ := onUnmounted_shape s
    simp only [step]; rw [e]
    show (stopScreenShare s).recordings.Pairwise _
    rw [hstop]; exact h

theorem reachable_run (f : String → Bool) (actions : List Action) :
    ∀ s : State, Reachable f s → Reachable f (run f s actions) := by
  induction actions with
  | nil => intro s h; exact h
  | cons a actions ih => intro s h; exact ih _ (Reachable.step a h)

theorem reachable_flags (f : String → Bool) (s : State) (h : Reachable f s) :
    FlagsConsistent s := by
  induction h with
  | init => exact ⟨fun h => (by cases h), fun h => (by cases h), fun h => (by cases h)⟩
  | step a _ ih => exact step_flags f _ a ih

/-- C3: in every reachable state the recordings collection is sorted by identifier in
descending order: every element's id is at least the id of every later element, in particular
of the element right after it. -/
theorem recordings_sorted_desc (f : String → Bool) (s : State) (h : Reachable f s) :
    s.recordings.Pairwise (fun a b => b.id ≤ a.id) ∧ SortedByIdDesc s.recordings := by
  have hp : s.recordings.Pairwise (fun a b => b.id ≤ a.id) := by
    induction h with
    | init => exact List.Pairwise.nil
    | step a _ ih => exact step_recordings_pairwise f _ a ih
  exact ⟨hp, pairwise_sortedByIdDesc _ hp⟩

/-- Witness for C3: two finalized recordings, the newer one (id 200) first. -/
theorem recordings_sorted_desc_witness :
    twoRecordingsState.recordings.map Recording.id = [200, 100] ∧
      twoRecordingsState.recordings.Pairwise (fun a b => b.id ≤ a.id) ∧
      SortedByIdDesc twoRecordingsState.recordings :=
  ⟨by decide,
    recordings_sorted_desc webmOnly twoRecordingsState
      (reachable_run webmOnly _ initialState Reachable.init)⟩

/-- C9: in every reachable state, if the recording-active flag is set then a capture stream
is held (`mediaStream.value` is not `null`), and the paused flag is set only while the
recording-active flag is set. -/
theorem recording_implies_capturing (f : String → Bool) (s : State) (h : Reachable f s) :
    (s.isRecording = true → s.mediaStream ≠ none) ∧
      (s.isPaused = true → s.isRecording = true) := by
  obtain ⟨h1, h2, _⟩ := reachable_flags f s h
  refine ⟨fun hr hn => ?_, h2⟩
  have := h1 hr
  rw [hn] at this
  cases this

/-- Witness for C9: a paused recording, with the capture stream held. -/
theorem recording_implies_capturing_witness :
    pausedRecordingState.isPaused = true ∧
      (pausedRecordingState.isRecording = true → pausedRecordingState.mediaStream ≠ none) ∧
      (pausedRecordingState.isPaused = true → pausedRecordingState.isRecording = true) :=
  ⟨by decide,
    recording_implies_capturing webmOnly pausedRecordingState
      (reachable_run webmOnly _ initialState Reachable.init)⟩

theorem findIndex_none {α : Type} (p : α → Bool) (l : List α)
    (h : ∀ x ∈ l, p x = false) : findIndex p l = none := by
  induction l with
  | nil => rfl
  | cons a l ih =>
    have ha : p a = false := h a (List.mem_cons_self _ _)
    have hl := ih (fun x hx => h x (List.mem_cons_of_mem _ hx))
    simp [findIndex, ha, hl]

theorem findIndex_split {α : Type} (p : α → Bool) (pre : List α) (r : α) (post : List α)
    (hpre : ∀ x ∈ pre, p x = false) (hr : p r = true) :
    findIndex p (pre ++ r :: post) = some pre.length := by
  induction pre with
  | nil => simp [findIndex, hr]
  | cons a pre ih =>
    have ha : p a = false := hpre a (List.mem_cons_self _ _)
    have hl := ih (fun x hx => hpre x (List.mem_cons_of_mem _ hx))
    simp [findIndex, ha, hl]

theorem exists_first_split {α : Type} (p : α → Bool) (l : List α)
    (h : ∃ x ∈ l, p x = true) :
    ∃ pre r post, l = pre ++ r :: post ∧ p r = true ∧ ∀ x ∈ pre, p x = false := by
  induction l with
  | nil => simp at h
  | cons a l ih =>
    cases ha : p a
    · obtain ⟨x, hx, hpx⟩ := h
      have hxl : x ∈ l := by
        rcases List.mem_cons.1 hx with rfl | h'
        · rw [ha] at hpx; cases hpx
        · exact h'
      obtain ⟨pre, r, post, e, hr, hpre⟩ := ih ⟨x, hxl, hpx⟩
      refine ⟨a :: pre, r, post, by rw [e]; rfl, hr, ?_⟩
      intro y hy
      rcases List.mem_cons.1 hy with rfl | h'
      · exact ha
      · exact hpre y h'
    · exact ⟨[], a, l, rfl, ha, fun _ hx => by cases hx⟩

/-- C4: if some Recording has the id, `deleteRecording(id)` splits the collection at the first
such Recording `r`: exactly one `URL.revokeObjectURL` call is made, on `r.url`, and the new
collection is the old one without `r`, the others in their order; if no Recording has the id,
nothing is released and the state, the collection included, is unchanged. -/
theorem deleteRecording_releases_once (id : Nat) (s : State) :
    ((∃ x ∈ s.recordings, x.id = id) →
      ∃ pre r post, s.recordings = pre ++ r :: post ∧ r.id = id ∧ (∀ x ∈ pre, x.id ≠ id) ∧
        (deleteRecording id s).revoked = s.revoked ++ [r.url] ∧
        (deleteRecording id s).recordings = pre ++ post) ∧
    ((∀ x ∈ s.recordings, x.id ≠ id) → deleteRecording id s = s) := by
  constructor
  · intro h
    obtain ⟨pre, r, post, e, hr, hpre⟩ :=
      exists_first_split (fun r : Recording => r.id == id) s.recordings
        (by obtain ⟨x, hx, hxi⟩ := h; exact ⟨x, hx, by simpa using hxi⟩)
    have hfi := findIndex_split (fun r : Recording => r.id == id) pre r post hpre hr
    have hget : (pre ++ r :: post)[pre.length]? = some r := by
      rw [List.getElem?_append_right (le_refl _)]; simp
    have her : (pre ++ r :: post).eraseIdx pre.length = pre ++ post := by
      rw [List.eraseIdx_append_of_length_le (le_refl _)]; simp
    refine ⟨pre, r, post, e, by simpa using hr, fun x hx => by simpa using hpre x hx, ?_, ?_⟩
    · simp only [deleteRecording, revokeObjectURL]
      rw [e, hfi]
      simp only [hget]
    · simp only [deleteRecording, revokeObjectURL]
      rw [e, hfi]
      simp only [hget, her]
  · intro h
    unfold deleteRecording
    rw [findIndex_none _ _ (fun x hx => by simpa using h x hx)]

theorem selectMimeType_split (f : String → Bool) (pre : List String) (m : String)
    (post : List String) (hpre : ∀ t ∈ pre, f t = false) (hm : f m = true) :
    selectMimeType f (pre ++ m :: post) = some m := by
  induction pre with
  | nil => simp [selectMimeType, hm]
  | cons a pre ih =>
    have ha : f a = false := hpre a (List.mem_cons_self _ _)
    have hl := ih (fun x hx => hpre x (List.mem_cons_of_mem _ hx))
    simp [selectMimeType, ha, hl]

theorem selectMimeType_none (f : String → Bool) (l : List String)
    (h : ∀ t ∈ l, f t = false) : selectMimeType f l = none := by
  induction l with
  | nil => rfl
  | cons a l ih =>
    have ha : f a = false := h a (List.mem_cons_self _ _)
    have hl := ih (fun x hx => h x (List.mem_cons_of_mem _ hx))
    simp [selectMimeType, ha, hl]

/-- C6: with a capture stream present, `startRecording` creates the recorder with the earliest
entry of the fixed candidate list that `isTypeSupported` accepts; if it accepts none,
`startRecording` sets the error message and leaves the recorder reference, the running flag,
the elapsed counter, the timer handle, the armed timers and the recorders as they were. -/
theorem startRecording_selects_first_supported (f : String → Bool) (s : State)
    (stream : MediaStreamObj) (hs : s.mediaStream = some stream) :
    possibleMimeTypes =
        ["video/x-matroska;codecs=h264", "video/webm;codecs=vp9", "video/webm;codecs=vp8",
         "video/webm", "video/mp4"] ∧
    (∀ pre m post, possibleMimeTypes = pre ++ m :: post → (∀ t ∈ pre, f t = false) →
      f m = true →
      (startRecording f s).mediaRecorder = some s.encoders.length ∧
      (startRecording f s).encoders = s.encoders ++
        [({ stream := stream, mimeType := m, videoBitsPerSecond := 8000000,
            timeslice := some 1000, state := RecorderState.recording } : MediaRecorderObj)]) ∧
    ((∀ t ∈ possibleMimeTypes, f t = false) →
      (startRecording f s).error = startRecordingError ∧
      (startRecording f s).mediaRecorder = s.mediaRecorder ∧
      (startRecording f s).isRecording = s.isRecording ∧
      (startRecording f s).recordingTime = s.recordingTime ∧
      (startRecording f s).recordingInterval = s.recordingInterval ∧
      (startRecording f s).encoders = s.encoders ∧
      (startRecording f s).timers = s.timers ∧
      (startRecording f s).nextTimer = s.nextTimer) := by
  refine ⟨rfl, ?_, ?_⟩
  · intro pre m post e hpre hm
    have hsel : selectMimeType f possibleMimeTypes = some m := by
      rw [e]; exact selectMimeType_split f pre m post hpre hm
    rcases startRecording_shape f s with ⟨_, h⟩ | ⟨_, h⟩ | ⟨stream', m', hs', hm', e'⟩
    · rw [hs] at h; cases h
    · rw [hsel] at h; cases h
    · rw [hs] at hs'; rw [hsel] at hm'
      cases hs'; cases hm'
      rw [e']
      exact ⟨rfl, rfl⟩
  · intro hnone
    have hsel := selectMimeType_none f _ hnone
    rcases startRecording_shape f s with ⟨_, h⟩ | ⟨e', _⟩ | ⟨_, _, _, hm', _⟩
    · rw [hs] at h; cases h
    · rw [e']; exact ⟨rfl, rfl, rfl, rfl, rfl, rfl, rfl, rfl⟩
    · rw [hsel] at hm'; cases hm'

theorem startScreenShare_finish_records (f : String → Bool) (s : State)
    (hs : s.mediaStream.isSome = true) (hfmt : ∃ t ∈ possibleMimeTypes, f t = true) :
    (startScreenShare_finish f s).isRecording = true ∧
      (startScreenShare_finish f s).mediaStream = s.mediaStream := by
  obtain ⟨vp, el, er, e⟩ := startScreenShare_finish_shape f s
  obtain ⟨m, hm⟩ := selectMimeType_isSome f _ hfmt
  rw [e]
  rcases startRecording_shape f { s with videoPreview := vp } with
    ⟨_, h⟩ | ⟨_, h⟩ | ⟨_, _, _, _, e'⟩
  · have h' : s.mediaStream = none := h
    rw [h'] at hs; cases hs
  · rw [hm] at h; cases h
  · rw [e']; exact ⟨rfl, rfl⟩

theorem startScreenShare_afterCamera_records (f : String → Bool) (d : MediaStreamObj)
    (c : Option MediaStreamObj) (s : State) (hfmt : ∃ t ∈ possibleMimeTypes, f t = true) :
    (startScreenShare_afterCamera f d c s).isRecording = true ∧
      (startScreenShare_afterCamera f d c s).mediaStream.isSome = true := by
  unfold startScreenShare_afterCamera
  split
  · have := startScreenShare_finish_records f
      { acquireStream ‹MediaStreamObj› s with mediaStream := some (combineStreams d ‹_›) } rfl hfmt
    exact ⟨this.1, by rw [this.2]; rfl⟩
  · have := startScreenShare_finish_records f { s with mediaStream := some d } rfl hfmt
    exact ⟨this.1, by rw [this.2]; rfl⟩

/-- C7 (amended): for every mode value (`screen`, `screen-camera` or any other), whenever
`getDisplayMedia` hands out a stream and the platform supports at least one candidate format,
the recording-active flag is set and a capture stream is held when `startScreenShare` returns;
the same holds for the continuation of a call that was suspended at either `await`. -/
theorem startScreenShare_records_when_supported (f : String → Bool) (mode : String)
    (displayStream : MediaStreamObj) (cameraResult : Option MediaStreamObj) (s : State)
    (hfmt : ∃ t ∈ possibleMimeTypes, f t = true) :
    (startScreenShare f (some displayStream) cameraResult
        { s with recordingMode := mode }).isRecording = true ∧
      (startScreenShare f (some displayStream) cameraResult
        { s with recordingMode := mode }).mediaStream.isSome = true ∧
      (s.awaitingDisplay ≠ 0 → s.recordingMode ≠ "screen-camera" →
        (step f s (Action.displaySettled (some displayStream))).isRecording = true) ∧
      (∀ i, i < s.awaitingCamera.length →
        (step f s (Action.cameraSettled i cameraResult)).isRecording = true) := by
  have hA : (startScreenShare f (some displayStream) cameraResult
        { s with recordingMode := mode }).isRecording = true ∧
      (startScreenShare f (some displayStream) cameraResult
        { s with recordingMode := mode }).mediaStream.isSome = true := by
    unfold startScreenShare
    simp only []
    split
    · exact startScreenShare_afterCamera_records f _ _ _ hfmt
    · have := startScreenShare_finish_records f
        { acquireStream displayStream { { s with recordingMode := mode } with error := "" } with
          mediaStream := some displayStream } rfl hfmt
      exact ⟨this.1, by rw [this.2]; rfl⟩
  refine ⟨hA.1, hA.2, ?_, ?_⟩
  · intro h0 hm
    simp only [step, h0, if_false]
    have hm' : ¬ (acquireStream displayStream
        { s with awaitingDisplay := s.awaitingDisplay - 1 }).recordingMode = "screen-camera" := hm
    rw [if_neg hm']
    refine (startScreenShare_finish_records f _ ?_ hfmt).1
    rfl
  · intro i hi
    simp only [step]
    have : s.awaitingCamera[i]? = some s.awaitingCamera[i] := List.getElem?_eq_getElem hi
    rw [this]
    exact (startScreenShare_afterCamera_records f _ _ _ hfmt).1

/-- Witness for C4: from the collection with ids 200 and 100, deleting id 100 releases one URL
and deleting the absent id 7 changes nothing. -/
theorem deleteRecording_releases_once_witness :
    (∃ pre r post, twoRecordingsState.recordings = pre ++ r :: post ∧ r.id = 100 ∧
        (∀ x ∈ pre, x.id ≠ 100) ∧
        (deleteRecording 100 twoRecordingsState).revoked =
          twoRecordingsState.revoked ++ [r.url] ∧
        (deleteRecording 100 twoRecordingsState).recordings = pre ++ post) ∧
      deleteRecording 7 twoRecordingsState = twoRecordingsState :=
  ⟨(deleteRecording_releases_once 100 twoRecordingsState).1 (by decide),
   (deleteRecording_releases_once 7 twoRecordingsState).2 (by decide)⟩

/-- Witness for C6: on a WebM-only platform the fourth candidate is chosen. -/
theorem startRecording_selects_first_supported_witness :
    (startRecording webmOnly capturingState).mediaRecorder = some 0 ∧
      (startRecording webmOnly capturingState).encoders =
        [({ stream := display1, mimeType := "video/webm", videoBitsPerSecond := 8000000,
            timeslice := some 1000, state := RecorderState.recording } : MediaRecorderObj)] :=
  (startRecording_selects_first_supported webmOnly capturingState display1 rfl).2.1
    ["video/x-matroska;codecs=h264", "video/webm;codecs=vp9", "video/webm;codecs=vp8"]
    "video/webm" ["video/mp4"] rfl (by decide) (by decide)

/-- Counterexample to C7: on a platform supporting none of the candidate formats,
`startScreenShare` in mode `screen` acquires the display stream and returns with the
recording-active flag still false. -/
theorem startScreenShare_without_format_counterexample :
    initialState.recordingMode = "screen" ∧
      (startScreenShare noneSupported (some display1) none initialState).mediaStream =
        some display1 ∧
      (startScreenShare noneSupported (some display1) none initialState).isRecording = false ∧
      (startScreenShare noneSupported (some display1) none initialState).error =
        startRecordingError ∧
      ¬ ((startScreenShare noneSupported (some display1) none initialState).mediaStream ≠ none →
        (startScreenShare noneSupported (some display1) none initialState).isRecording = true) := by
  decide

/-- Witness for C7 (amended): screen-camera mode, camera refused, WebM supported. -/
theorem startScreenShare_records_when_supported_witness :
    (startScreenShare webmOnly (some display1) none
        { initialState with recordingMode := "screen-camera" }).isRecording = true :=
  (startScreenShare_records_when_supported webmOnly "screen-camera" display1 none initialState
    ⟨"video/webm", by decide, by decide⟩).1

/-- C5 (what the code does at the failing input): teardown during a running recording stops
the capture and queues the recorder's `stop` event; the `onstop` handler then runs after the
teardown has already walked the collection, so the URL it creates (handle 0) is in the
collection and is never released. Teardown after a double `startRecording` clears only the
timer whose handle is still stored and leaves the other one armed. With two finalized
recordings and nothing running, teardown does release both URLs. -/
theorem teardown_leaks_late_recording_url :
    Reachable webmOnly (run webmOnly recordingState teardownThenFinalize) ∧
      recordingState.isRecording = true ∧
      (step webmOnly recordingState Action.unmounted).pendingStop = [0] ∧
      (step webmOnly recordingState Action.unmounted).mediaStream = none ∧
      (step webmOnly recordingState Action.unmounted).isRecording = false ∧
      (run webmOnly recordingState teardownThenFinalize).recordings.map Recording.url = [0] ∧
      (run webmOnly recordingState teardownThenFinalize).revoked = [] ∧
      unreleasedUrls (run webmOnly recordingState teardownThenFinalize) = [0] ∧
      armedTimers (step webmOnly doubleStartState Action.unmounted) = 1 ∧
      (step webmOnly twoRecordingsState Action.unmounted).revoked = [1, 0] ∧
      unreleasedUrls (step webmOnly twoRecordingsState Action.unmounted) = [] :=
  ⟨reachable_run webmOnly _ _ (reachable_run webmOnly _ initialState Reachable.init),
    by decide⟩

/-- C8 (what the code does at the failing input): a second `startRecording` during a running
recording creates and starts a second recorder and arms a second timer without stopping the
first recorder or clearing the first timer; every firing of either timer increments the
counter. A second granted `startScreenShare` does the same and also leaves the tracks of the
first stream live although no cell refers to them any more. -/
theorem double_start_leaves_two_timers :
    Reachable webmOnly doubleStartState ∧
      activeEncoders recordingState = 1 ∧ armedTimers recordingState = 1 ∧
      activeEncoders doubleStartState = 2 ∧ armedTimers doubleStartState = 2 ∧
      doubleStartState.timers = [1, 2] ∧ doubleStartState.recordingInterval = some 2 ∧
      (run webmOnly doubleStartState
        [Action.timerFired 1, Action.timerFired 2]).recordingTime = 2 ∧
      armedTimers (stopRecording doubleStartState) = 1 ∧
      activeEncoders (stopRecording doubleStartState) = 1 ∧
      activeEncoders doubleShareState = 2 ∧ armedTimers doubleShareState = 2 ∧
      doubleShareState.mediaStream = some display2 ∧
      orphanTracks doubleShareState = [1, 2] :=
  ⟨reachable_run webmOnly _ _ (reachable_run webmOnly _ initialState Reachable.init),
    by decide⟩

theorem padStart_two_digits : ∀ m < 100,
    padStart 2 '0' (numToString m) = [Nat.digitChar (m / 10), Nat.digitChar (m % 10)] := by
  decide

theorem digitChar_isDigit : ∀ d < 10, (Nat.digitChar d).isDigit = true := by decide

theorem digitChar_value : ∀ d < 10, digitValue (Nat.digitChar d) = d := by decide

theorem numToString_length_ge (m : Nat) (h : 100 ≤ m) : 3 ≤ (numToString m).length := by
  unfold numToString Nat.toDigits
  obtain ⟨k, rfl⟩ : ∃ k, m = k + 2 := ⟨m - 2, by omega⟩
  have h1 : (k + 2) / 10 ≠ 0 := by omega
  have h2 : (k + 2) / 10 / 10 ≠ 0 := by omega
  simp only [Nat.toDigitsCore, h1, h2, if_false]
  split
  · simp
  · rw [Nat.toDigitsCore_lens_eq, Nat.toDigitsCore_lens_eq, Nat.toDigitsCore_lens_eq]; omega

/-- Counterexample to C10: at 6000 seconds the display is `100:00`, three digits of minutes,
which is not of the form MM:SS. -/
theorem formattedTime_6000_counterexample :
    formattedTime 6000 = "100:00" ∧ ¬ IsMMSS (formattedTime 6000) 6000 := by
  refine ⟨by decide, ?_⟩
  rintro ⟨m1, m2, s1, s2, h, -⟩
  have e : formattedTime 6000 = "100:00" := by decide
  rw [e] at h
  have hlen := congrArg String.length h
  simp [String.length] at hlen

/-- C10 (amended): `formattedTime` is in MM:SS form (exactly two decimal digits of minutes, a
colon, exactly two decimal digits of seconds in 00-59, with `60 * MM + SS = t`) exactly for the
elapsed values `t < 6000`, i.e. below 100 minutes; from 6000 on the minutes take three or more
digits. -/
theorem formattedTime_isMMSS_iff (t : Nat) : IsMMSS (formattedTime t) t ↔ t < 6000 := by
  constructor
  · rintro ⟨m1, m2, s1, s2, h, -⟩
    by_contra hge
    have hlen := congrArg String.length h
    have h3 := numToString_length_ge (t / 60) (by omega)
    simp [formattedTime, String.length, padStart] at hlen
    omega
  · intro ht
    have hm : t / 60 < 100 := by omega
    have hs : t % 60 < 60 := Nat.mod_lt _ (by decide)
    refine ⟨Nat.digitChar (t / 60 / 10), Nat.digitChar (t / 60 % 10),
      Nat.digitChar (t % 60 / 10), Nat.digitChar (t % 60 % 10), ?_, ?_, ?_, ?_, ?_, ?_, ?_⟩
    · simp [formattedTime, padStart_two_digits _ hm, padStart_two_digits (t % 60) (by omega)]
    · exact digitChar_isDigit _ (by omega)
    · exact digitChar_isDigit _ (by omega)
    · exact digitChar_isDigit _ (by omega)
    · exact digitChar_isDigit _ (by omega)
    · simp only [decimalValue, List.foldl]
      rw [digitChar_value _ (by omega), digitChar_value _ (by omega)]; omega
    · simp only [decimalValue, List.foldl]
      rw [digitChar_value _ (by omega), digitChar_value _ (by omega),
        digitChar_value _ (by omega), digitChar_value _ (by omega)]; omega

end Srec
